import Mathlib

/-!
Shallow embedding of `.github/skills/scripts/validate-skill.py` (the
`validate_skill` function) and proofs about it.

Modelling conventions:
- A Python `str` is a Lean `String`; file contents are the text-mode
  (universal-newlines) decoded contents, so line boundaries are `'\n'`.
  `len` on a Python `str` counts code points, which is `String.length`.
- The regex class `\s`, `str.strip()` and `str.lower()` are modelled on
  their ASCII fragment (the inputs of interest are ASCII): whitespace is
  space, tab, newline, carriage return, vertical tab and form feed, and
  lowering maps only `A`-`Z`.
- The host file system is abstracted by `SkillDir`: the (optional) content
  of `<dir>/SKILL.md` and the (optional) listing of `<dir>/references`.
  The string `skillDirPath` is the script's directory-path argument and
  `dirName` stands for `os.path.basename(os.path.normpath(skillDirPath))`,
  both taken as inputs (path normalisation is the OS library's job).
- `yaml.safe_load` is an external collaborator; `validate_skill` takes it
  as a parameter `yamlParse` producing either a parse error, a key-value
  mapping, or a successfully parsed non-mapping value (PyYAML returns
  `None` for an empty document and a plain scalar for scalar text).
  Mapping values are modelled as strings or YAML null, the shapes the
  specification's data model names.
- Calling `.get` on a non-mapping raises `AttributeError` in Python; the
  embedding returns `Except.error` there, and `Except.ok` where the
  Python function returns normally.
-/

/-- Python values that can appear as frontmatter-mapping values in this
model: strings and YAML null (`None`). -/
inductive PyVal
| str (s : String)
| null
deriving DecidableEq

/-- Python truthiness of a modelled value: `None` and `""` are falsy. -/
def PyVal.truthy : PyVal → Bool
| .str s => !s.data.isEmpty
| .null => false

/-- Python `str(v)`. -/
def PyVal.pyStr : PyVal → String
| .str s => s
| .null => "None"

/-- The Python type name, as it appears in an `AttributeError` message. -/
def PyVal.typeName : PyVal → String
| .str _ => "str"
| .null => "NoneType"

/-- Result of a successful `yaml.safe_load`: a key-value mapping or some
other (non-mapping) value. -/
inductive Yaml
| mapping (kvs : List (String × PyVal))
| nonMapping (v : PyVal)
deriving DecidableEq

/-- The unhandled Python exceptions the embedded code can raise. -/
inductive PyExn
| attributeError (msg : String)
deriving DecidableEq

/-- ASCII fragment of the regex class `\s` / `str.strip` whitespace. -/
def isPySpace (c : Char) : Bool :=
  c == ' ' || c == '\t' || c == '\n' || c == '\r' || c == '\x0b' || c == '\x0c'

/-- Python `s.strip()` (ASCII-whitespace fragment). -/
def pyStrip (l : List Char) : List Char :=
  ((l.dropWhile isPySpace).reverse.dropWhile isPySpace).reverse

/-- Python `s.lower()` (ASCII fragment). -/
def pyLower (l : List Char) : List Char := l.map Char.toLower

/-- Python `pat in s` substring test. -/
def hasSubstr (pat : List Char) : List Char → Bool
| [] => pat.isEmpty
| c :: rest => pat.isPrefixOf (c :: rest) || hasSubstr pat rest

/-- Python `s.endswith(t)`. -/
def strEndsWith (s t : String) : Bool := t.data.isSuffixOf s.data

/-- `re.sub(r"\s+", " ", s)`: each maximal whitespace run becomes one
space. The flag records whether the previous character was whitespace. -/
def collapseAux : Bool → List Char → List Char
| _, [] => []
| prevWs, c :: rest =>
  if isPySpace c then
    (if prevWs then [] else [' ']) ++ collapseAux true rest
  else c :: collapseAux false rest

/-- `re.sub(r"\s+", " ", s)` on a whole string. -/
def collapseWs (l : List Char) : List Char := collapseAux false l

/-- Helper for `pySplitlines`: split at `'\n'`, not keeping the ends. -/
def splitAux (acc : List Char) : List Char → List (List Char)
| [] => [acc.reverse]
| c :: rest =>
  if c == '\n' then
    acc.reverse :: (if rest.isEmpty then [] else splitAux [] rest)
  else splitAux (c :: acc) rest

/-- Python `s.splitlines()` with `'\n'` boundaries (the source, via
Python, also breaks at rarer control characters; inputs here are
newline-delimited text). -/
def pySplitlines : List Char → List (List Char)
| [] => []
| c :: rest => splitAux [] (c :: rest)

/-- Helper for `pyReadlines`: split after each `'\n'`, keeping it. -/
def readAux (acc : List Char) : List Char → List (List Char)
| [] => if acc.isEmpty then [] else [acc.reverse]
| c :: rest =>
  if c == '\n' then (acc.reverse ++ ['\n']) :: readAux [] rest
  else readAux (c :: acc) rest

/-- Python `f.readlines()` of a file whose decoded content is `l`. -/
def pyReadlines (l : List Char) : List (List Char) := readAux [] l

/-!  The frontmatter regex `^---\s*\n(.*?)\n---\s*\n` with `re.DOTALL`,
matched at the start of the file (`re.match`).  `\s*\n` is greedy with
backtracking: it can consume through any `'\n'` inside the maximal
whitespace run, longest first; `(.*?)` is lazy.  -/

/-- All remainders after matching `\s*\n` at the head of `l`, in the
greedy preference order (longest whitespace consumed first). -/
def wsNlCandidates (l : List Char) : List (List Char) :=
  let w := l.takeWhile isPySpace
  (((List.range w.length).filter fun k => w.getD k ' ' == '\n').reverse).map
    fun k => l.drop (k + 1)

/-- Scan for the closing `\n---\s*\n` (lazily, i.e. at the first position
where the whole of it matches); `acc` holds the group-1 characters read
so far, reversed.  Returns group 1 and the remainder after the match. -/
def findClose (acc : List Char) : List Char → Option (List Char × List Char)
| [] => none
| c :: rest =>
  if c == '\n' && rest.take 3 == ['-', '-', '-'] then
    match wsNlCandidates (rest.drop 3) with
    | r :: _ => some (acc.reverse, r)
    | [] => findClose (c :: acc) rest
  else findClose (c :: acc) rest

/-- Try each opening `\s*\n` split in preference order. -/
def tryOpens : List (List Char) → Option (List Char × List Char)
| [] => none
| r :: rs =>
  match findClose [] r with
  | some p => some p
  | none => tryOpens rs

/-- `re.match(r"^---\s*\n(.*?)\n---\s*\n", content, re.DOTALL)`: on
success, group 1 (the frontmatter region) and the remainder of the file
after the match (the body, `content[fm_match.end():]`). -/
def matchFrontmatter (content : List Char) : Option (List Char × List Char) :=
  if content.take 3 == ['-', '-', '-'] then tryOpens (wsNlCandidates (content.drop 3))
  else none

/-!  The name regex `^[a-z0-9]([a-z0-9-]*[a-z0-9])?$` under `re.match`:
anchored at the start, and `$` accepts the end of the string or a
position just before a single final newline.  -/

def isLowerAlnum (c : Char) : Bool :=
  (decide ('a' ≤ c) && decide (c ≤ 'z')) || (decide ('0' ≤ c) && decide (c ≤ '9'))

/-- The regex body `[a-z0-9]([a-z0-9-]*[a-z0-9])?` against a whole string. -/
def nameBodyMatch : List Char → Bool
| [] => false
| c :: rest =>
  isLowerAlnum c &&
    (rest.isEmpty ||
      ((rest.dropLast.all fun d => isLowerAlnum d || d == '-') &&
        isLowerAlnum (rest.getLastD ' ')))

/-- `re.match(r"^[a-z0-9]([a-z0-9-]*[a-z0-9])?$", s)` as a Bool. -/
def nameRegexMatch (s : String) : Bool :=
  nameBodyMatch s.data ||
    (s.data.getLastD ' ' == '\n' && nameBodyMatch s.data.dropLast)

/-!  The nested-reference-link regex
`\[.*?\]\((?:references/|\./).*?\.md\)` (no DOTALL: `.` does not cross a
newline) with `re.findall`, which returns the full non-overlapping
matches scanning left to right.  -/

/-- Match `.*?\.md\)` lazily at the head: the smallest newline-free
prefix followed by the literal `.md)`.  Returns the matched length. -/
def tailMatch : List Char → Option Nat
| [] => none
| c :: rest =>
  if (c :: rest).take 4 == ['.', 'm', 'd', ')'] then some 4
  else if c == '\n' then none
  else (tailMatch rest).map (· + 1)

/-- Match `(?:references/|\./).*?\.md\)` at the head. -/
def midMatch (l : List Char) : Option Nat :=
  if "references/".data.isPrefixOf l then (tailMatch (l.drop 11)).map (· + 11)
  else if ['.', '/'].isPrefixOf l then (tailMatch (l.drop 2)).map (· + 2)
  else none

/-- After the opening `[`, match `.*?\]\(` lazily (with backtracking past
a `](` whose continuation fails) followed by `midMatch`. -/
def bracketScan : List Char → Option Nat
| [] => none
| c :: rest =>
  if c == ']' then
    match rest with
    | '(' :: rest2 =>
      match midMatch rest2 with
      | some n => some (2 + n)
      | none => (bracketScan rest).map (· + 1)
    | _ => (bracketScan rest).map (· + 1)
  else if c == '\n' then none
  else (bracketScan rest).map (· + 1)

/-- `re.findall` scan: try a match at each position, and continue after
the end of each match.  The fuel starts at the list length, which bounds
the number of steps. -/
def findallAux : Nat → List Char → List String
| 0, _ => []
| _, [] => []
| fuel + 1, c :: rest =>
  if c == '[' then
    match bracketScan rest with
    | some m => String.mk ('[' :: rest.take m) :: findallAux fuel (rest.drop m)
    | none => findallAux fuel rest
  else findallAux fuel rest

/-- `re.findall(r"\[.*?\]\((?:references/|\./).*?\.md\)", content)`. -/
def findNested (l : List Char) : List String := findallAux l.length l

/-!  Dictionaries, sorting, and the output messages.  -/

/-- Python dict lookup on an association list where a later binding for
the same key overwrites an earlier one. -/
def dictGet? : List (String × PyVal) → String → Option PyVal
| [], _ => none
| (k', v) :: rest, k =>
  match dictGet? rest k with
  | some w => some w
  | none => if k' == k then some v else none

/-- Python `key in dict`. -/
def hasKey (kvs : List (String × PyVal)) (k : String) : Bool :=
  (dictGet? kvs k).isSome

/-- Python string `<` (lexicographic by code point): used by `sorted`. -/
def lexLt : List Char → List Char → Bool
| [], [] => false
| [], _ :: _ => true
| _ :: _, [] => false
| a :: as, b :: bs => if a == b then lexLt as bs else decide (a.toNat < b.toNat)

/-- A directory entry of `references/` as the script sees it: its name,
whether it is a regular file, and its decoded content. -/
structure RefEntry where
  name : String
  isFile : Bool
  content : String
deriving DecidableEq

/-- The inputs `validate_skill` reads from disk: the content of
`<dir>/SKILL.md` when it is a file, and the listing of
`<dir>/references` when it is a directory. -/
structure SkillDir where
  skillMd : Option String
  refsDir : Option (List RefEntry)
deriving DecidableEq

/-- `sorted` comparison on entries (by filename, Python string order). -/
def entryLe (a b : RefEntry) : Bool := !(lexLt b.name.data a.name.data)

/-- `entryLe` as a relation, for `List.insertionSort`. -/
def entryLeP (a b : RefEntry) : Prop := entryLe a b = true

instance : DecidableRel entryLeP :=
  fun a b => inferInstanceAs (Decidable (entryLe a b = true))

/-- `sorted(os.listdir(refs_dir))`: a stable sort by name.  Python's
sort is stable; insertion sort with a total preorder is as well, and the
names of distinct directory entries are distinct anyway. -/
def sortEntries (es : List RefEntry) : List RefEntry :=
  List.insertionSort entryLeP es

/-- Python `repr` of a list of strings, as an f-string formats
`nested[:3]` (exact for strings without quotes or backslashes). -/
def pyListRepr (xs : List String) : String :=
  "[" ++ String.intercalate ", " (xs.map fun s => "'" ++ s ++ "'") ++ "]"

def nameMissingMsg : String := "Missing required 'name' field in frontmatter"

def nameLenMsg (n : String) : String :=
  "'name' exceeds 64 characters (" ++ toString n.length ++ " chars)"

def namePatternMsg (n : String) : String :=
  "'name' must be lowercase alphanumeric + hyphens, not start/end with hyphen: '" ++ n ++ "'"

def nameHyphenMsg (n : String) : String :=
  "'name' must not contain consecutive hyphens: '" ++ n ++ "'"

def nameMismatchMsg (n dirName : String) : String :=
  "'name' (" ++ n ++ ") does not match directory name (" ++ dirName ++ ")"

def descMissingMsg : String := "Missing or empty 'description' field in frontmatter"

def descLenMsg (len : Nat) : String :=
  "'description' exceeds 1024 characters (" ++ toString len ++ " chars)"

def licenseMsg : String := "No 'license' field in frontmatter (recommended)"

def bodyLenMsg (n : Nat) : String :=
  "SKILL.md body is " ++ toString n ++ " lines (recommended max: 500)"

def tocMsg (fname : String) (n : Nat) : String :=
  "references/" ++ fname ++ " (" ++ toString n ++
    " lines) has no Table of Contents (recommended for files > 100 lines)"

def nestedMsg (fname : String) (links : List String) : String :=
  "references/" ++ fname ++
    " has nested reference links (should be one level deep): " ++ pyListRepr links

/-!  The validation steps, one definition per block of the source.  -/

/-- Step 3 of `validate_skill` (lines 48-61): the `name` checks. -/
def nameErrors (dirName : String) (name : PyVal) : List String :=
  if name.truthy then
    let n := name.pyStr
    (if 64 < n.length then [nameLenMsg n] else []) ++
    (if nameRegexMatch n then [] else [namePatternMsg n]) ++
    (if hasSubstr ['-', '-'] n.data then [nameHyphenMsg n] else []) ++
    (if n = dirName then [] else [nameMismatchMsg n dirName])
  else [nameMissingMsg]

/-- Step 4 of `validate_skill` (lines 63-72): the `description` checks. -/
def descErrors (desc : PyVal) : List String :=
  if desc.truthy = false ∨ pyStrip desc.pyStr.data = [] then [descMissingMsg]
  else
    let collapsed := collapseWs (pyStrip desc.pyStr.data)
    if 1024 < collapsed.length then [descLenMsg collapsed.length] else []

/-- Step 6 of `validate_skill` (lines 78-82): the body line count. -/
def bodyWarnings (body : List Char) : List String :=
  let bodyLines := pySplitlines (pyStrip body)
  if 500 < bodyLines.length then [bodyLenMsg bodyLines.length] else []

/-- Step 7, per file (lines 91-97): table-of-contents advisory. -/
def tocWarn (fname content : String) : Option String :=
  let ls := pyReadlines content.data
  if 100 < ls.length then
    let header := pyLower ((ls.take 30).flatten)
    if hasSubstr "table of contents".data header = false ∧
        hasSubstr "## contents".data header = false
    then some (tocMsg fname ls.length)
    else none
  else none

/-- Step 8, per file (lines 105-109): nested-reference-link advisory. -/
def nestedWarn (fname content : String) : Option String :=
  match findNested content.data with
  | [] => none
  | ns => some (nestedMsg fname (ns.take 3))

/-- Step 7's loop body: skip non-`.md` names and non-files (line 89). -/
def tocEntryWarn (e : RefEntry) : Option String :=
  if strEndsWith e.name ".md" && e.isFile then tocWarn e.name e.content else none

/-- Step 8's loop body: skip non-`.md` names and non-files (line 103). -/
def nestedEntryWarn (e : RefEntry) : Option String :=
  if strEndsWith e.name ".md" && e.isFile then nestedWarn e.name e.content else none

/-- Step 7 over the sorted listing. -/
def tocPass (es : List RefEntry) : List String :=
  (sortEntries es).filterMap tocEntryWarn

/-- Step 8 over the sorted listing. -/
def nestedPass (es : List RefEntry) : List String :=
  (sortEntries es).filterMap nestedEntryWarn

/-- Steps 7 and 8 (lines 84-109): both run only when `references/` is a
directory, and step 7's pass completes before step 8's begins. -/
def refWarnings : Option (List RefEntry) → List String
| none => []
| some es => tocPass es ++ nestedPass es

/-- `validate_skill(skill_dir)` (lines 23-111).  `yamlParse` is the
external YAML collaborator, `skillDirPath` the `skill_dir` argument and
`dirName` its normalised basename.  `Except.error` marks an unhandled
Python exception; `Except.ok` carries `(errors, warnings)`. -/
def validate_skill (yamlParse : String → Except String Yaml)
    (skillDirPath dirName : String) (d : SkillDir) :
    Except PyExn (List String × List String) :=
  match d.skillMd with
  | none => .ok (["SKILL.md not found in " ++ skillDirPath], [])
  | some content =>
    match matchFrontmatter content.data with
    | none => .ok (["SKILL.md missing YAML frontmatter (--- delimiters)"], [])
    | some (region, body) =>
      match yamlParse (String.mk region) with
      | .error e => .ok (["Invalid YAML frontmatter: " ++ e], [])
      | .ok (.nonMapping v) =>
        .error (.attributeError ("'" ++ v.typeName ++ "' object has no attribute 'get'"))
      | .ok (.mapping fm) =>
        let errs := nameErrors dirName ((dictGet? fm "name").getD .null) ++
                    descErrors ((dictGet? fm "description").getD (.str ""))
        let warns := (if hasKey fm "license" then [] else [licenseMsg]) ++
                     bodyWarnings body ++
                     refWarnings d.refsDir
        .ok (errs, warns)

/-!  A concrete YAML collaborator for closed instances.  -/

/-- Split a line at the first `": "` occurrence. -/
def splitColonSpace (acc : List Char) : List Char → Option (List Char × List Char)
| [] => none
| c :: rest =>
  if c == ':' && rest.take 1 == [' '] then some (acc.reverse, rest.drop 1)
  else splitColonSpace (c :: acc) rest

/-- One `key: value` or `key:` line as a binding. -/
def yamlLineKV (l : List Char) : Option (String × PyVal) :=
  match splitColonSpace [] l with
  | some (k, v) => some (String.mk (pyStrip k), PyVal.str (String.mk (pyStrip v)))
  | none =>
    if l.getLastD ' ' == ':' then some (String.mk (pyStrip l.dropLast), PyVal.null)
    else none

/-- Modelled from the spec: the external YAML collaborator the source
calls as `yaml.safe_load` (spec section 9: a generic markup-language
parser giving "a mapping with string keys and scalar/string values plus
a parse-failure signal").  An empty document parses to null (as PyYAML
returns `None`), `key: value` lines parse to a mapping, a single keyless
line parses to a string scalar, and anything else is a parse failure. -/
def yamlParseSimple (s : String) : Except String Yaml :=
  let ls := (pySplitlines s.data).filter fun l => !(pyStrip l).isEmpty
  match ls with
  | [] => Except.ok (Yaml.nonMapping PyVal.null)
  | [l] =>
    match yamlLineKV l with
    | some kv => Except.ok (Yaml.mapping [kv])
    | none => Except.ok (Yaml.nonMapping (PyVal.str (String.mk (pyStrip l))))
  | _ =>
    let kvs := ls.map yamlLineKV
    if kvs.all Option.isSome then Except.ok (Yaml.mapping (kvs.filterMap id))
    else Except.error "could not parse block as a mapping"

/-!  The nested-link criterion in the claim's words, for comparison with
the source's regex.  -/

/-- Take characters up to a closing delimiter, returning the piece and
the rest after the delimiter. -/
def upTo (stop : Char) (acc : List Char) : List Char → Option (List Char × List Char)
| [] => none
| c :: rest => if c == stop then some (acc.reverse, rest) else upTo stop (c :: acc) rest

/-- Targets of the markdown-style links `[text](target)` in `l` (text up
to the first `]`, target up to the first `)`). -/
def mdTargetsAux : Nat → List Char → List (List Char)
| 0, _ => []
| fuel + 1, l =>
  match l with
  | [] => []
  | c :: rest =>
    if c == '[' then
      match upTo ']' [] rest with
      | some (_, '(' :: rest2) =>
        match upTo ')' [] rest2 with
        | some (target, after) => target :: mdTargetsAux fuel after
        | none => mdTargetsAux fuel rest
      | _ => mdTargetsAux fuel rest
    else mdTargetsAux fuel rest

/-- All markdown-style link targets of a document. -/
def mdTargets (l : List Char) : List (List Char) := mdTargetsAux l.length l

/-- The claim's wording of the nested-link criterion: some markdown-style
link target contains `references/` or begins with `./`, and ends in
`.md`. -/
def claimNestedLink (l : List Char) : Bool :=
  (mdTargets l).any fun t =>
    (hasSubstr "references/".data t || "./".data.isPrefixOf t) &&
      ".md".data.isSuffixOf t

/-!  Helper facts used by the theorems below.  -/

instance {ε α : Type} [DecidableEq ε] [DecidableEq α] : DecidableEq (Except ε α) :=
  fun a b =>
    match a, b with
    | .ok x, .ok y =>
      if h : x = y then isTrue (by rw [h]) else isFalse (by intro hc; cases hc; exact h rfl)
    | .error x, .error y =>
      if h : x = y then isTrue (by rw [h]) else isFalse (by intro hc; cases hc; exact h rfl)
    | .ok _, .error _ => isFalse (by intro hc; cases hc)
    | .error _, .ok _ => isFalse (by intro hc; cases hc)

theorem char_eq_of_toNat_eq {a b : Char} (h : a.toNat = b.toNat) : a = b :=
  Char.eq_of_val_eq (UInt32.ext h)

theorem lexLt_asymm : ∀ a b : List Char, lexLt a b = true → lexLt b a = false
| [], [] => by simp [lexLt]
| [], _ :: _ => by simp [lexLt]
| _ :: _, [] => by simp [lexLt]
| a :: as, b :: bs => by
  simp only [lexLt]
  by_cases hab : (a == b) = true
  · have h := beq_iff_eq.mp hab
    subst h
    simp only [hab, if_pos]
    exact lexLt_asymm as bs
  · have hba : ¬((b == a) = true) := fun hb => hab (beq_iff_eq.mpr (beq_iff_eq.mp hb).symm)
    rw [if_neg hab, if_neg hba]
    simp only [decide_eq_true_eq, decide_eq_false_iff_not]
    intro h
    omega

theorem lexLt_not_lt_trans :
    ∀ a b c : List Char, lexLt b a = false → lexLt c b = false → lexLt c a = false
| [], _, [] => by simp [lexLt]
| [], [], _ :: _ => by simp [lexLt]
| [], _ :: _, _ :: _ => by simp [lexLt]
| _ :: _, [], _ => by simp [lexLt]
| _ :: _, _ :: _, [] => by simp [lexLt]
| a :: as, b :: bs, c :: cs => by
  simp only [lexLt]
  by_cases hba : (b == a) = true
  · have h := beq_iff_eq.mp hba
    subst h
    by_cases hcb : (c == b) = true
    · have h2 := beq_iff_eq.mp hcb
      subst h2
      simp only [hcb, if_pos]
      exact lexLt_not_lt_trans as bs cs
    · simp only [hba, hcb, if_pos, if_neg, Bool.not_eq_true]
      intro h1 h2
      exact h2
  · by_cases hcb : (c == b) = true
    · have h2 := beq_iff_eq.mp hcb
      subst h2
      simp only [hba, if_neg, Bool.not_eq_true]
      intro h1 _
      exact h1
    · rw [if_neg hba, if_neg hcb]
      simp only [decide_eq_false_iff_not]
      intro h1 h2
      by_cases hca : (c == a) = true
      · exfalso
        have h3 := beq_iff_eq.mp hca
        have h4 : b.toNat = a.toNat := by rw [← h3] at h1 ⊢; omega
        exact hba (beq_iff_eq.mpr (char_eq_of_toNat_eq h4))
      · rw [if_neg hca]
        simp only [decide_eq_false_iff_not]
        omega

instance : IsTotal RefEntry entryLeP where
  total a b := by
    simp only [entryLeP, entryLe, Bool.not_eq_true']
    rcases h : lexLt b.name.data a.name.data with _ | _
    · exact Or.inl rfl
    · exact Or.inr (lexLt_asymm _ _ h)

instance : IsTrans RefEntry entryLeP where
  trans a b c hab hbc := by
    simp only [entryLeP, entryLe, Bool.not_eq_true'] at *
    exact lexLt_not_lt_trans a.name.data b.name.data c.name.data hab hbc

/-- A file of `n` lines, each the single character `x`. -/
def mkLines (n : Nat) : String := String.mk (List.flatten (List.replicate n ['x', '\n']))

/-- A SKILL.md satisfying every metadata condition, with a short body. -/
def validSkillContent : String :=
  "---\nname: my-skill\ndescription: A tiny skill.\nlicense: MIT\n---\nUse it wisely.\n"

/-- The same frontmatter over a 501-line body. -/
def longBodyContent : String :=
  "---\nname: my-skill\ndescription: A tiny skill.\nlicense: MIT\n---\n" ++ mkLines 501

/-!  The claims.  -/

/-- C2: each of the three fatal conditions — SKILL.md absent, no
frontmatter region, a parse failure — returns immediately with exactly
one error and no warnings.  They are however not the only conditions
that cut the remaining checks short: a frontmatter that parses to a
non-mapping makes the very next check raise `AttributeError` (the last
conjunct), so the code never reaches the later steps there either. -/
theorem c2_fatal_conditions :
    validate_skill yamlParseSimple "p" "d" ⟨none, none⟩ =
      .ok (["SKILL.md not found in p"], []) ∧
    validate_skill yamlParseSimple "p" "d" ⟨some "no frontmatter here\n", none⟩ =
      .ok (["SKILL.md missing YAML frontmatter (--- delimiters)"], []) ∧
    validate_skill yamlParseSimple "p" "d" ⟨some "---\nfoo: bar\n[broken\n---\nbody\n", none⟩ =
      .ok (["Invalid YAML frontmatter: could not parse block as a mapping"], []) ∧
    validate_skill yamlParseSimple "p" "d" ⟨some "---\nnot a mapping\n---\nbody\n", none⟩ =
      .error (.attributeError "'str' object has no attribute 'get'") := by
  refine ⟨rfl, by decide, by decide, by decide⟩

/-- C3: a frontmatter region that parses successfully but does not yield
a mapping — the empty region (YAML null) or a scalar — does not produce
a fatal error: `frontmatter.get("name")` raises `AttributeError`
instead, so `validate_skill` raises rather than returning. -/
theorem c3_nonmapping_frontmatter_raises :
    validate_skill yamlParseSimple "p" "d" ⟨some "---\n\n---\nbody\n", none⟩ =
      .error (.attributeError "'NoneType' object has no attribute 'get'") ∧
    validate_skill yamlParseSimple "p" "d" ⟨some "---\nhello\n---\nbody\n", none⟩ =
      .error (.attributeError "'str' object has no attribute 'get'") := by
  exact ⟨by decide, by decide⟩

set_option maxRecDepth 40000 in
/-- C5: the description check is a single "missing or empty" error when
the value is falsy or blank after trimming, and otherwise exactly one
length error, reporting the whitespace-collapsed length, precisely when
that length exceeds 1024.  The concrete conjuncts show a
whitespace-only value, a 1025-character value (error citing 1025) and a
1024-character value (no error). -/
theorem c5_description_checks :
    (∀ v : PyVal,
      descErrors v =
        if v.truthy = false ∨ pyStrip v.pyStr.data = [] then [descMissingMsg]
        else if 1024 < (collapseWs (pyStrip v.pyStr.data)).length then
          [descLenMsg (collapseWs (pyStrip v.pyStr.data)).length]
        else []) ∧
    descErrors (PyVal.str "  \n ") = [descMissingMsg] ∧
    descErrors PyVal.null = [descMissingMsg] ∧
    descErrors (PyVal.str (String.mk (List.replicate 1025 'a'))) = [descLenMsg 1025] ∧
    descErrors (PyVal.str (String.mk (List.replicate 1024 'a'))) = [] := by
  refine ⟨fun v => rfl, by decide, by decide, by decide, by decide⟩

set_option maxRecDepth 40000 in
/-- C8: when metadata parsed, the body warning is exactly one message
reporting the trimmed body's line count precisely when that count
exceeds 500; a 501-line body warns citing 501, a 500-line body does
not. -/
theorem c8_body_length_warning :
    (∀ body : List Char,
      bodyWarnings body =
        if 500 < (pySplitlines (pyStrip body)).length then
          [bodyLenMsg (pySplitlines (pyStrip body)).length]
        else []) ∧
    bodyWarnings (mkLines 501).data = [bodyLenMsg 501] ∧
    bodyWarnings (mkLines 500).data = [] ∧
    bodyLenMsg 501 = "SKILL.md body is 501 lines (recommended max: 500)" := by
  refine ⟨fun body => rfl, by decide, by decide, by decide⟩

/-- C9: a present but falsy name value — the empty string, or the YAML
null a bare key yields — produces exactly the single "missing name"
error, and none of the four name checks runs. -/
theorem c9_falsy_name_single_error :
    ∀ dirName : String,
      nameErrors dirName (PyVal.str "") = [nameMissingMsg] ∧
      nameErrors dirName PyVal.null = [nameMissingMsg] := by
  intro dirName
  exact ⟨rfl, rfl⟩

/-- C6 counterexample: the content `[see](docs/references/other.md)` is
a markdown-style link whose target contains `references/` and ends in
`.md` — the claim's criterion holds — yet the source's regex requires
`references/` or `./` immediately after the opening parenthesis, finds
nothing, and the file draws no warning. -/
theorem c6_counterexample :
    claimNestedLink "[see](docs/references/other.md)".data = true ∧
    nestedWarn "a.md" "[see](docs/references/other.md)" = none ∧
    nestedPass [⟨"a.md", true, "[see](docs/references/other.md)"⟩] = [] := by
  refine ⟨by decide, by decide, by decide⟩

/-- C6 amended: a reference file draws exactly one nested-link warning,
listing up to its first three regex matches verbatim, precisely when
the regex — whose target must begin with `references/` or `./` right
after the opening parenthesis and run to a later `.md)` — matches
somewhere in the content; `[see](references/other.md)` draws the
warning listing that link, `[see](https://example.com/other.md)` draws
none. -/
theorem c6_nested_link_warnings :
    (∀ fname content : String,
      nestedWarn fname content = none ↔ findNested content.data = []) ∧
    (∀ fname content : String,
      nestedWarn fname content = none ∨
        nestedWarn fname content =
          some (nestedMsg fname ((findNested content.data).take 3))) ∧
    nestedWarn "a.md" "[see](references/other.md)" =
      some ("references/a.md has nested reference links (should be one level deep): " ++
        "['[see](references/other.md)']") ∧
    nestedWarn "a.md" "[see](https://example.com/other.md)" = none := by
  refine ⟨?_, ?_, by decide, by decide⟩
  · intro fname content
    unfold nestedWarn
    cases h : findNested content.data with
    | nil => simp
    | cons x xs => simp
  · intro fname content
    unfold nestedWarn
    cases h : findNested content.data with
    | nil => exact Or.inl rfl
    | cons x xs => exact Or.inr rfl

set_option maxRecDepth 40000 in
/-- C7: a reference file draws the table-of-contents warning, naming the
file and its line count, precisely when it has more than 100 lines and
the lower-cased concatenation of its first 30 lines contains neither
"table of contents" nor "## contents"; a 101-line file without them
draws it, a 100-line file does not, and a non-file entry or a name not
ending in `.md` is skipped. -/
theorem c7_toc_warnings :
    (∀ fname content : String,
      (tocWarn fname content).isSome = true ↔
        (100 < (pyReadlines content.data).length ∧
         hasSubstr "table of contents".data
           (pyLower ((pyReadlines content.data).take 30).flatten) = false ∧
         hasSubstr "## contents".data
           (pyLower ((pyReadlines content.data).take 30).flatten) = false)) ∧
    (∀ fname content : String,
      tocWarn fname content = none ∨
        tocWarn fname content = some (tocMsg fname (pyReadlines content.data).length)) ∧
    tocWarn "big.md" (mkLines 101) = some (tocMsg "big.md" 101) ∧
    tocWarn "big.md" (mkLines 100) = none ∧
    tocPass [⟨"big.md", false, mkLines 101⟩] = [] ∧
    tocPass [⟨"notes.txt", true, mkLines 101⟩] = [] := by
  refine ⟨?_, ?_, by decide, by decide, by decide, by decide⟩
  · intro fname content
    simp only [tocWarn]
    split_ifs with h1 h2
    · simp [h1, h2.1, h2.2]
    · simp only [Option.isSome_none, Bool.false_eq_true, false_iff]
      intro hc
      exact h2 ⟨hc.2.1, hc.2.2⟩
    · simp only [Option.isSome_none, Bool.false_eq_true, false_iff]
      intro hc
      exact h1 hc.1
  · intro fname content
    simp only [tocWarn]
    split_ifs with h1 h2
    · exact Or.inr rfl
    · exact Or.inl rfl
    · exact Or.inl rfl

/-- C10: the reference warnings consist of step 7's table-of-contents
pass followed in full by step 8's nested-link pass, and each pass walks
the directory listing sorted by filename (Python string order), so
warnings appear in sorted filename order within each pass. -/
theorem c10_ref_warning_order :
    ∀ es : List RefEntry,
      refWarnings (some es) = tocPass es ++ nestedPass es ∧
      tocPass es = (sortEntries es).filterMap tocEntryWarn ∧
      nestedPass es = (sortEntries es).filterMap nestedEntryWarn ∧
      List.Sorted entryLeP (sortEntries es) := by
  intro es
  exact ⟨rfl, rfl, rfl, List.sorted_insertionSort entryLeP es⟩

/-- The first eight characters of an appended string come from a long
enough left part. -/
theorem take8_of_append (p x : String) (h : 8 ≤ p.data.length) :
    (p ++ x).data.take 8 = p.data.take 8 := by
  rw [String.data_append p x, List.take_append_of_le_length h]

theorem nameLenMsg_take8 (n : String) :
    (nameLenMsg n).data.take 8 = "'name' e".data := by
  have h1 : 8 ≤ ("'name' exceeds 64 characters (" ++ toString n.length).data.length := by
    rw [String.data_append, List.length_append]
    have : ("'name' exceeds 64 characters (" : String).data.length = 30 := by decide
    omega
  unfold nameLenMsg
  rw [take8_of_append _ _ h1, take8_of_append _ _ (by decide)]
  decide

theorem namePatternMsg_take8 (n : String) :
    (namePatternMsg n).data.take 8 = "'name' m".data := by
  have h1 : 8 ≤
      ("'name' must be lowercase alphanumeric + hyphens, not start/end with hyphen: '" ++
        n).data.length := by
    rw [String.data_append, List.length_append]
    have : ("'name' must be lowercase alphanumeric + hyphens, not start/end with hyphen: '" :
      String).data.length = 77 := by decide
    omega
  unfold namePatternMsg
  rw [take8_of_append _ _ h1, take8_of_append _ _ (by decide)]
  decide

theorem nameHyphenMsg_take8 (n : String) :
    (nameHyphenMsg n).data.take 8 = "'name' m".data := by
  have h1 : 8 ≤ ("'name' must not contain consecutive hyphens: '" ++ n).data.length := by
    rw [String.data_append, List.length_append]
    have : ("'name' must not contain consecutive hyphens: '" : String).data.length = 46 := by
      decide
    omega
  unfold nameHyphenMsg
  rw [take8_of_append _ _ h1, take8_of_append _ _ (by decide)]
  decide

theorem nameMismatchMsg_take8 (n d : String) :
    (nameMismatchMsg n d).data.take 8 = "'name' (".data := by
  have l0 : ("'name' (" : String).data.length = 8 := by decide
  have h1 : 8 ≤ ("'name' (" ++ n).data.length := by
    rw [String.data_append, List.length_append]
    omega
  have h2 : 8 ≤ (("'name' (" ++ n) ++ ") does not match directory name (").data.length := by
    rw [String.data_append, List.length_append]
    omega
  have h3 : 8 ≤ ((("'name' (" ++ n) ++ ") does not match directory name (") ++ d).data.length := by
    rw [String.data_append, List.length_append]
    omega
  unfold nameMismatchMsg
  rw [take8_of_append _ _ h3, take8_of_append _ _ h2, take8_of_append _ _ h1,
    take8_of_append _ _ (by omega)]
  decide

theorem nameLenMsg_ne_mismatch (n m d : String) : nameLenMsg n ≠ nameMismatchMsg m d := by
  intro h
  have h2 : (nameLenMsg n).data.take 8 = (nameMismatchMsg m d).data.take 8 := by rw [h]
  rw [nameLenMsg_take8, nameMismatchMsg_take8] at h2
  exact absurd h2 (by decide)

theorem namePatternMsg_ne_mismatch (n m d : String) :
    namePatternMsg n ≠ nameMismatchMsg m d := by
  intro h
  have h2 : (namePatternMsg n).data.take 8 = (nameMismatchMsg m d).data.take 8 := by rw [h]
  rw [namePatternMsg_take8, nameMismatchMsg_take8] at h2
  exact absurd h2 (by decide)

theorem nameHyphenMsg_ne_mismatch (n m d : String) :
    nameHyphenMsg n ≠ nameMismatchMsg m d := by
  intro h
  have h2 : (nameHyphenMsg n).data.take 8 = (nameMismatchMsg m d).data.take 8 := by rw [h]
  rw [nameHyphenMsg_take8, nameMismatchMsg_take8] at h2
  exact absurd h2 (by decide)

/-- C4: with a truthy name, the four name checks fire independently,
each contributing its own single error in program order; `My-Skill`
draws exactly the pattern error, `my--skill` exactly the
consecutive-hyphen error, and a name differing from the directory name
draws exactly one mismatch error, whose text carries both values. -/
theorem c4_name_checks_independent :
    (∀ n dirName : String, n ≠ "" →
      nameErrors dirName (PyVal.str n) =
        (if 64 < n.length then [nameLenMsg n] else []) ++
        (if nameRegexMatch n then [] else [namePatternMsg n]) ++
        (if hasSubstr ['-', '-'] n.data then [nameHyphenMsg n] else []) ++
        (if n = dirName then [] else [nameMismatchMsg n dirName])) ∧
    nameErrors "My-Skill" (PyVal.str "My-Skill") = [namePatternMsg "My-Skill"] ∧
    nameErrors "my--skill" (PyVal.str "my--skill") = [nameHyphenMsg "my--skill"] ∧
    namePatternMsg "My-Skill" =
      "'name' must be lowercase alphanumeric + hyphens, not start/end with hyphen: 'My-Skill'" ∧
    nameHyphenMsg "my--skill" = "'name' must not contain consecutive hyphens: 'my--skill'" ∧
    nameMismatchMsg "bar" "foo" = "'name' (bar) does not match directory name (foo)" ∧
    (∀ n dirName : String, n ≠ "" → n ≠ dirName →
      (nameErrors dirName (PyVal.str n)).count (nameMismatchMsg n dirName) = 1) := by
  have hmain : ∀ n dirName : String, n ≠ "" →
      nameErrors dirName (PyVal.str n) =
        (if 64 < n.length then [nameLenMsg n] else []) ++
        (if nameRegexMatch n then [] else [namePatternMsg n]) ++
        (if hasSubstr ['-', '-'] n.data then [nameHyphenMsg n] else []) ++
        (if n = dirName then [] else [nameMismatchMsg n dirName]) := by
    intro n dirName hn
    have hd : (PyVal.truthy (PyVal.str n)) = true := by
      simp only [PyVal.truthy, Bool.not_eq_true']
      rcases h : n.data.isEmpty with _ | _
      · rfl
      · exact absurd (String.ext (by rw [List.isEmpty_iff] at h; rw [h])) hn
    simp only [nameErrors, hd, if_pos, PyVal.pyStr]
  refine ⟨hmain, by decide, by decide, by decide, by decide, by decide, ?_⟩
  intro n dirName hn hnd
  rw [hmain n dirName hn]
  rw [List.count_append, List.count_append, List.count_append]
  have h1 : (if 64 < n.length then [nameLenMsg n] else []).count
      (nameMismatchMsg n dirName) = 0 := by
    split_ifs
    · rw [List.count_eq_zero]
      simp only [List.mem_singleton]
      exact fun hc => nameLenMsg_ne_mismatch n n dirName hc.symm
    · rfl
  have h2 : (if nameRegexMatch n then [] else [namePatternMsg n]).count
      (nameMismatchMsg n dirName) = 0 := by
    split_ifs
    · rfl
    · rw [List.count_eq_zero]
      simp only [List.mem_singleton]
      exact fun hc => namePatternMsg_ne_mismatch n n dirName hc.symm
  have h3 : (if hasSubstr ['-', '-'] n.data then [nameHyphenMsg n] else []).count
      (nameMismatchMsg n dirName) = 0 := by
    split_ifs
    · rw [List.count_eq_zero]
      simp only [List.mem_singleton]
      exact fun hc => nameHyphenMsg_ne_mismatch n n dirName hc.symm
    · rfl
  have h4 : (if n = dirName then [] else [nameMismatchMsg n dirName]).count
      (nameMismatchMsg n dirName) = 1 := by
    rw [if_neg hnd]
    simp
  rw [h1, h2, h3, h4]

set_option maxRecDepth 40000 in
/-- C1 counterexample: a directory whose SKILL.md satisfies every
metadata condition of the claim — name equal to the directory basename
and well formed, description present and short, license present — but
whose body runs 501 lines.  The errors are empty yet the warnings are
not, so metadata conditions alone do not give an empty warning list. -/
theorem c1_counterexample :
    validate_skill yamlParseSimple "skills/my-skill" "my-skill"
      ⟨some longBodyContent, none⟩ =
      Except.ok ([], ["SKILL.md body is 501 lines (recommended max: 500)"]) := by
  decide

/-- C1 amended: with the claim's metadata conditions and additionally a
body of at most 500 trimmed lines and no references directory, the
result is zero errors and zero warnings. -/
theorem c1_valid_skill_clean
    (yamlParse : String → Except String Yaml)
    (skillDirPath dirName content descr : String)
    (region body : List Char) (fm : List (String × PyVal))
    (hfm : matchFrontmatter content.data = some (region, body))
    (hyaml : yamlParse (String.mk region) = Except.ok (Yaml.mapping fm))
    (hname : dictGet? fm "name" = some (PyVal.str dirName))
    (hlen : dirName.length ≤ 64)
    (hpat : nameRegexMatch dirName = true)
    (hhyp : hasSubstr ['-', '-'] dirName.data = false)
    (hdesc : dictGet? fm "description" = some (PyVal.str descr))
    (hdesc1 : pyStrip descr.data ≠ [])
    (hdesc2 : (collapseWs (pyStrip descr.data)).length ≤ 1024)
    (hlic : hasKey fm "license" = true)
    (hbody : (pySplitlines (pyStrip body)).length ≤ 500) :
    validate_skill yamlParse skillDirPath dirName ⟨some content, none⟩ =
      Except.ok ([], []) := by
  have hnameErr : nameErrors dirName (PyVal.str dirName) = [] := by
    have hdn : dirName ≠ "" := by
      intro he
      subst he
      exact absurd hpat (by decide)
    have hd : PyVal.truthy (PyVal.str dirName) = true := by
      simp only [PyVal.truthy, Bool.not_eq_true']
      rcases h : dirName.data.isEmpty with _ | _
      · rfl
      · exact absurd (String.ext (by rw [List.isEmpty_iff] at h; rw [h])) hdn
    simp only [nameErrors, hd, if_pos, PyVal.pyStr]
    rw [if_neg (by omega), if_pos hpat, if_neg (by simp [hhyp])]
    simp
  have hdescErr : descErrors (PyVal.str descr) = [] := by
    have hdne : descr.data ≠ [] := fun h => hdesc1 (by rw [h]; rfl)
    have htrue : PyVal.truthy (PyVal.str descr) = true := by
      simp only [PyVal.truthy, Bool.not_eq_true']
      rcases h : descr.data.isEmpty with _ | _
      · rfl
      · exact absurd (by rw [List.isEmpty_iff] at h; exact h) hdne
    simp only [descErrors, PyVal.pyStr]
    rw [if_neg, if_neg]
    · omega
    · rintro (hc | hc)
      · rw [htrue] at hc
        cases hc
      · exact hdesc1 hc
  have hbodyWarn : bodyWarnings body = [] := by
    simp only [bodyWarnings]
    rw [if_neg (by omega)]
  simp only [validate_skill, hfm, hyaml, hname, hdesc, hlic, Option.getD_some,
    hnameErr, hdescErr, hbodyWarn, refWarnings, if_pos]
  simp

/-- C1 witness: a concrete fully valid directory with a one-line body,
validated by the concrete collaborator, yields zero errors and zero
warnings. -/
theorem c1_valid_skill_clean_witness :
    validate_skill yamlParseSimple "skills/my-skill" "my-skill"
      ⟨some validSkillContent, none⟩ = Except.ok ([], []) :=
  c1_valid_skill_clean yamlParseSimple "skills/my-skill" "my-skill" validSkillContent
    "A tiny skill."
    "name: my-skill\ndescription: A tiny skill.\nlicense: MIT".data
    "Use it wisely.\n".data
    [("name", PyVal.str "my-skill"), ("description", PyVal.str "A tiny skill."),
      ("license", PyVal.str "MIT")]
    (by decide) (by decide) (by decide) (by decide) (by decide) (by decide)
    (by decide) (by decide) (by decide) (by decide) (by decide)
